import Mathlib

/-!
Verification of the weather_advisory core: the advisory classifier
(`generate_farmer_advice` in app.py) and the prediction-log store
(`append_log` / `read_recent` in log_utils.py).

Modelling conventions:
- Python floats are modelled by `ℚ`; `round(x, 2)` is modelled by exact
  decimal rounding to 2 places with ties to even (`round2`), and the
  f-string rendering of the rounded float is modelled by `formatRat2`,
  which prints the shortest decimal form with at least one fractional
  digit, as Python `repr` does for such values.
- The CSV log file is modelled at the line/field level: a file state is
  `none` (file absent) or `some lines` where each line is a list of
  string fields.  Python dicts carrying a row are association lists.
- `pd.read_csv` followed by `.tail(n).to_dict(orient="records")` is
  modelled by taking the first line as the header; an empty file raises
  (absorbed into an empty result).  When the first data row is wider
  than the header, pandas promotes its leading extra columns to the
  index, so the established field width is the larger of the header
  width and the first data row's width; a data row wider than the
  established width raises a parser error (absorbed into an empty
  result).  Otherwise the last `n` rows are returned as records keyed
  by the header names, with each row's leading index fields dropped.
-/

/-- Decimal rounding of `x` to the nearest integer with ties to even,
modelling Python's `round` on the scaled value. -/
def roundHalfEven (x : ℚ) : ℤ :=
  if x - ⌊x⌋ < 1/2 then ⌊x⌋
  else if 1/2 < x - ⌊x⌋ then ⌊x⌋ + 1
  else if ⌊x⌋ % 2 = 0 then ⌊x⌋ else ⌊x⌋ + 1

/-- Model of Python `round(x, 2)` from app.py line 103: round to two
decimal places, ties to even. -/
def round2 (q : ℚ) : ℚ := (roundHalfEven (q * 100) : ℚ) / 100

/-- Render the fractional part `f` (0 ≤ f < 100, in hundredths) the way
Python `repr` renders it after `round(x, 2)`: trailing zeros dropped but
at least one digit kept. -/
def fracStr (f : Nat) : String :=
  if f = 0 then "0"
  else if f % 10 = 0 then toString (f / 10)
  else if f < 10 then "0" ++ toString f
  else toString f

/-- Render an integer number of hundredths as a decimal string, the way
Python `repr` renders the corresponding float. -/
def intStr (m : Int) : String :=
  (if m < 0 then "-" else "") ++ toString (m.natAbs / 100) ++ "." ++ fracStr (m.natAbs % 100)

/-- Model of the f-string rendering `f"{rain_mm}"` in app.py for a value
that is an exact multiple of 1/100 (the result of `round(x, 2)`). -/
def formatRat2 (q : ℚ) : String := intStr ⌊q * 100⌋

/-- The advisory record returned by `generate_farmer_advice` in app.py:
a title plus three free-text guidance strings. -/
structure Advisory where
  title : String
  general : String
  maize : String
  beans : String

/-- Model of `generate_farmer_advice` (app.py lines 102-112): round the
input to 2 decimal places, then classify the rounded value into one of
five bands by successive strict upper-bound tests, embedding the
rounded value in the title. -/
def generate_farmer_advice (rain : ℚ) : Advisory :=
  if round2 rain < 1 then
    ⟨"Drought Alert (" ++ formatRat2 (round2 rain) ++ " mm)", "Very dry...", "Irrigate", "Delay sowing"⟩
  else if round2 rain < 5 then
    ⟨"Light Rain (" ++ formatRat2 (round2 rain) ++ " mm)", "Light...", "Top-dress", "Monitor"⟩
  else if round2 rain < 20 then
    ⟨"Optimal (" ++ formatRat2 (round2 rain) ++ " mm)", "Good for planting", "Plant", "Plant"⟩
  else if round2 rain < 50 then
    ⟨"Heavy (" ++ formatRat2 (round2 rain) ++ " mm)", "Manage drainage", "Risk of rot", "Avoid field access"⟩
  else
    ⟨"Severe Flooding (" ++ formatRat2 (round2 rain) ++ " mm)", "Cease activity", "Loss likely", "Loss likely"⟩

/-- Test whether the pattern (first argument) is an initial segment of
the second list. -/
def listStartsWith : List Char → List Char → Bool
  | [], _ => true
  | _ :: _, [] => false
  | a :: as, b :: bs => a == b && listStartsWith as bs

/-- Test whether the pattern (second argument) occurs as a contiguous
run inside the first list. -/
def listHasSub : List Char → List Char → Bool
  | [], pat => listStartsWith pat []
  | a :: rest, pat => listStartsWith pat (a :: rest) || listHasSub rest pat

/-- String containment: `pat` occurs contiguously inside `s`. -/
def strContains (s pat : String) : Bool := listHasSub s.data pat.data

/-- The fixed column schema `LOG_COLS` from log_utils.py line 5. -/
def LOG_COLS : List String :=
  ["date", "temperature", "wind", "pressure", "humidity", "cloud", "predicted_rainfall"]

/-- A Python dict carrying a row, modelled as an association list from
field name to field value (all values are carried as strings, as they
are serialised verbatim into the CSV). -/
abbrev Row := List (String × String)

/-- One line of the CSV file: a list of string fields. -/
abbrev Line := List String

/-- The log file on disk: `none` when the file does not exist, otherwise
the list of its lines. -/
abbrev FileState := Option (List Line)

/-- Model of Python `row.get(k, "")` on an association list. -/
def dictGet (row : Row) (k : String) : String := (row.lookup k).getD ""

/-- The single CSV data line written by `writer.writerow({k: row.get(k, "")
for k in LOG_COLS})` in log_utils.py line 14: the values of the seven
schema columns, in schema order, missing keys as empty strings. -/
def mkLine (row : Row) : Line := LOG_COLS.map (fun k => dictGet row k)

/-- Model of `append_log` (log_utils.py lines 7-14): if the file does not
exist, opening it in append mode creates it and the header is written
first; in every case exactly one data line is appended at the end.  The
header decision is based solely on prior file existence. -/
def append_log (row : Row) : FileState → FileState
  | none => some [LOG_COLS, mkLine row]
  | some ls => some (ls ++ [mkLine row])

/-- The last `n` elements of a list (model of `DataFrame.tail`). -/
def tailN (n : Nat) (l : List α) : List α := l.drop (l.length - n)

/-- Model of `read_recent` (log_utils.py lines 16-23): empty result when
the file is absent; `pd.read_csv` treats the first line as the header and
raises (absorbed into an empty result) on an empty file.  If the first
data row is wider than the header, pandas promotes its leading extra
fields to the index, establishing a field width of
`max header.length first.length`; any data row wider than the
established width raises a parser error (absorbed into an empty
result).  Otherwise the last `n` rows are returned as records keyed by
the header names, each row's leading index fields dropped. -/
def read_recent (n : Nat) : FileState → List Row
  | none => []
  | some [] => []
  | some (header :: rows) =>
    match rows with
    | [] => []
    | first :: _ =>
      if rows.any (fun r => decide (max header.length first.length < r.length)) then []
      else
        tailN n (rows.map (fun r =>
          header.zip (r.drop (max header.length first.length - header.length))))

/-- Fold `append_log` over a list of rows, oldest first. -/
def appendAll (rows : List Row) (fs : FileState) : FileState :=
  rows.foldl (fun s r => append_log r s) fs

/-- The record that a well-formed read returns for an appended row: the
schema columns paired with the written field values. -/
def recordOf (row : Row) : Row := LOG_COLS.zip (mkLine row)

/-- A log state the store itself can produce: absent, or the schema
header followed by data rows no longer than the header. -/
def wellFormedLog : FileState → Bool
  | none => true
  | some [] => false
  | some (h :: rows) =>
    h == LOG_COLS && rows.all (fun r => decide (r.length ≤ LOG_COLS.length))

/-- Sample record from the spec's concrete scenario A. -/
def r1x : Row :=
  [("date", "2024-01-01 08:00:00"), ("temperature", "22.0"), ("wind", "10.0"),
   ("pressure", "1012.0"), ("humidity", "60.0"), ("cloud", "40.0"),
   ("predicted_rainfall", "0.5")]

/-- Second sample record (scenario B). -/
def r2x : Row :=
  [("date", "2024-01-02 08:00:00"), ("temperature", "23.0"), ("wind", "11.0"),
   ("pressure", "1013.0"), ("humidity", "61.0"), ("cloud", "41.0"),
   ("predicted_rainfall", "1.5")]

/-- Third sample record (scenario B). -/
def r3x : Row :=
  [("date", "2024-01-03 08:00:00"), ("temperature", "24.0"), ("wind", "12.0"),
   ("pressure", "1014.0"), ("humidity", "62.0"), ("cloud", "42.0"),
   ("predicted_rainfall", "2.5")]

/-! Helper lemmas about rounding. -/

theorem roundHalfEven_down (x : ℚ) (f : ℤ) (h1 : ⌊x⌋ = f) (h2 : x - f < 1/2) :
    roundHalfEven x = f := by
  rw [roundHalfEven, h1, if_pos h2]

theorem roundHalfEven_up (x : ℚ) (f : ℤ) (h1 : ⌊x⌋ = f) (h2 : 1/2 < x - f) :
    roundHalfEven x = f + 1 := by
  rw [roundHalfEven, h1, if_neg (by linarith), if_pos h2]

theorem roundHalfEven_intCast (k : ℤ) : roundHalfEven (k : ℚ) = k := by
  have h : ⌊(k : ℚ)⌋ = k := Int.floor_intCast k
  exact roundHalfEven_down _ k h (by norm_num)

theorem round2_idem (q : ℚ) : round2 (round2 q) = round2 q := by
  rw [round2, round2]
  have h : (roundHalfEven (q * 100) : ℚ) / 100 * 100 = (roundHalfEven (q * 100) : ℚ) := by
    field_simp
  rw [h, roundHalfEven_intCast]

/-! Helper lemmas about string containment. -/

theorem listStartsWith_append (p : List Char) :
    ∀ s t, listStartsWith p s = true → listStartsWith p (s ++ t) = true := by
  induction p with
  | nil => intro s t _; rfl
  | cons a as ih =>
    intro s t h
    cases s with
    | nil => simp [listStartsWith] at h
    | cons b bs =>
      simp only [listStartsWith, Bool.and_eq_true] at h
      simp only [List.cons_append, listStartsWith, Bool.and_eq_true]
      exact ⟨h.1, ih bs t h.2⟩

theorem listHasSub_of_startsWith (s pat : List Char)
    (h : listStartsWith pat s = true) : listHasSub s pat = true := by
  cases s with
  | nil => rw [listHasSub]; exact h
  | cons a rest => rw [listHasSub, h, Bool.true_or]

theorem strContains_head (p rest pat : String)
    (h : listStartsWith pat.data p.data = true) : strContains (p ++ rest) pat = true := by
  rw [strContains, String.data_append]
  exact listHasSub_of_startsWith _ _ (listStartsWith_append _ _ _ h)

/-! Concrete evaluations of the rounding and formatting functions. -/

theorem round2_half : round2 (1/2 : ℚ) = 1/2 := by
  have h1 : ((1:ℚ)/2) * 100 = ((50:ℤ) : ℚ) := by norm_num
  rw [round2, h1, roundHalfEven_intCast]; norm_num

theorem round2_three : round2 (3 : ℚ) = 3 := by
  have h1 : (3:ℚ) * 100 = ((300:ℤ) : ℚ) := by norm_num
  rw [round2, h1, roundHalfEven_intCast]; norm_num

theorem round2_ten : round2 (10 : ℚ) = 10 := by
  have h1 : (10:ℚ) * 100 = ((1000:ℤ) : ℚ) := by norm_num
  rw [round2, h1, roundHalfEven_intCast]; norm_num

theorem round2_thirty : round2 (30 : ℚ) = 30 := by
  have h1 : (30:ℚ) * 100 = ((3000:ℤ) : ℚ) := by norm_num
  rw [round2, h1, roundHalfEven_intCast]; norm_num

theorem round2_sixty : round2 (60 : ℚ) = 60 := by
  have h1 : (60:ℚ) * 100 = ((6000:ℤ) : ℚ) := by norm_num
  rw [round2, h1, roundHalfEven_intCast]; norm_num

theorem round2_fifty : round2 (50 : ℚ) = 50 := by
  have h1 : (50:ℚ) * 100 = ((5000:ℤ) : ℚ) := by norm_num
  rw [round2, h1, roundHalfEven_intCast]; norm_num

theorem round2_49999 : round2 (49999/1000 : ℚ) = 50 := by
  have h1 : ((49999:ℚ)/1000) * 100 = 49999/10 := by norm_num
  have h2 : roundHalfEven (49999/10 : ℚ) = 5000 := by
    have h := roundHalfEven_up (49999/10 : ℚ) 4999 (by norm_num) (by norm_num)
    simpa using h
  rw [round2, h1, h2]; norm_num

theorem round2_1004 : round2 (1004/1000 : ℚ) = 1 := by
  have h1 : ((1004:ℚ)/1000) * 100 = 1004/10 := by norm_num
  have h2 : roundHalfEven (1004/10 : ℚ) = 100 := by
    exact roundHalfEven_down (1004/10 : ℚ) 100 (by norm_num) (by norm_num)
  rw [round2, h1, h2]; norm_num

theorem formatRat2_fifty : formatRat2 (50 : ℚ) = "50.0" := by
  have h : ⌊(50:ℚ) * 100⌋ = 5000 := by norm_num
  unfold formatRat2
  rw [h]
  rfl

theorem formatRat2_half : formatRat2 (1/2 : ℚ) = "0.5" := by
  have h : ⌊(1/2:ℚ) * 100⌋ = 50 := by norm_num
  unfold formatRat2
  rw [h]
  rfl

theorem formatRat2_one : formatRat2 (1 : ℚ) = "1.0" := by
  have h : ⌊(1:ℚ) * 100⌋ = 100 := by norm_num
  unfold formatRat2
  rw [h]
  rfl

/-! Concrete evaluations of the classifier. -/

theorem gfa_title_49999 :
    (generate_farmer_advice (49999/1000 : ℚ)).title = "Severe Flooding (50.0 mm)" := by
  simp only [generate_farmer_advice, round2_49999]
  rw [if_neg (by norm_num), if_neg (by norm_num), if_neg (by norm_num), if_neg (by norm_num)]
  rw [formatRat2_fifty]
  rfl

theorem gfa_title_fifty :
    (generate_farmer_advice (50 : ℚ)).title = "Severe Flooding (50.0 mm)" := by
  simp only [generate_farmer_advice, round2_fifty]
  rw [if_neg (by norm_num), if_neg (by norm_num), if_neg (by norm_num), if_neg (by norm_num)]
  rw [formatRat2_fifty]
  rfl

theorem gfa_title_half :
    (generate_farmer_advice (1/2 : ℚ)).title = "Drought Alert (0.5 mm)" := by
  simp only [generate_farmer_advice, round2_half]
  rw [if_pos (by norm_num)]
  rw [formatRat2_half]
  rfl

theorem gfa_title_1004 :
    (generate_farmer_advice (1004/1000 : ℚ)).title = "Light Rain (1.0 mm)" := by
  simp only [generate_farmer_advice, round2_1004]
  rw [if_neg (by norm_num), if_pos (by norm_num)]
  rw [formatRat2_one]
  rfl

/-- C1 (amended): for every rational rainfall value, `generate_farmer_advice`
assigns the band by comparing the rounded value against five half-open
intervals with boundaries belonging to the upper band (rounded value < 1
Drought, [1,5) Light, [5,20) Optimal, [20,50) Heavy, ≥ 50 Severe);
`classify(50.0)` lands in Severe, and `classify(49.999)` also lands in
Severe, because `round(49.999, 2) = 50.00` reaches the ≥ 50 band. -/
theorem claim_C1_bands (q : ℚ) :
    (round2 q < 1 → strContains (generate_farmer_advice q).title "Drought" = true) ∧
    (1 ≤ round2 q → round2 q < 5 → strContains (generate_farmer_advice q).title "Light" = true) ∧
    (5 ≤ round2 q → round2 q < 20 → strContains (generate_farmer_advice q).title "Optimal" = true) ∧
    (20 ≤ round2 q → round2 q < 50 → strContains (generate_farmer_advice q).title "Heavy" = true) ∧
    (50 ≤ round2 q → strContains (generate_farmer_advice q).title "Severe" = true) ∧
    strContains (generate_farmer_advice (50 : ℚ)).title "Severe" = true ∧
    strContains (generate_farmer_advice (49999/1000 : ℚ)).title "Severe" = true := by
  refine ⟨?_, ?_, ?_, ?_, ?_, ?_, ?_⟩
  · intro h1
    rw [generate_farmer_advice, if_pos h1]
    show strContains ("Drought Alert (" ++ formatRat2 (round2 q) ++ " mm)") "Drought" = true
    rw [String.append_assoc]
    exact strContains_head _ _ _ (by decide)
  · intro h1 h2
    rw [generate_farmer_advice, if_neg (not_lt.mpr h1), if_pos h2]
    show strContains ("Light Rain (" ++ formatRat2 (round2 q) ++ " mm)") "Light" = true
    rw [String.append_assoc]
    exact strContains_head _ _ _ (by decide)
  · intro h1 h2
    rw [generate_farmer_advice, if_neg (not_lt.mpr (by linarith)), if_neg (not_lt.mpr h1),
      if_pos h2]
    show strContains ("Optimal (" ++ formatRat2 (round2 q) ++ " mm)") "Optimal" = true
    rw [String.append_assoc]
    exact strContains_head _ _ _ (by decide)
  · intro h1 h2
    rw [generate_farmer_advice, if_neg (not_lt.mpr (by linarith)),
      if_neg (not_lt.mpr (by linarith)), if_neg (not_lt.mpr h1), if_pos h2]
    show strContains ("Heavy (" ++ formatRat2 (round2 q) ++ " mm)") "Heavy" = true
    rw [String.append_assoc]
    exact strContains_head _ _ _ (by decide)
  · intro h1
    rw [generate_farmer_advice, if_neg (not_lt.mpr (by linarith)),
      if_neg (not_lt.mpr (by linarith)), if_neg (not_lt.mpr (by linarith)),
      if_neg (not_lt.mpr h1)]
    show strContains ("Severe Flooding (" ++ formatRat2 (round2 q) ++ " mm)") "Severe" = true
    rw [String.append_assoc]
    exact strContains_head _ _ _ (by decide)
  · rw [gfa_title_fifty]; decide
  · rw [gfa_title_49999]; decide

/-- C1 counterexample: as stated the claim requires `classify(49.999)` to
land in the Heavy band, but the code first rounds 49.999 to 50.00 and the
rounded value reaches the Severe branch: the title is
"Severe Flooding (50.0 mm)" and does not contain "Heavy". -/
theorem claim_C1_counterexample :
    (generate_farmer_advice (49999/1000 : ℚ)).title = "Severe Flooding (50.0 mm)" ∧
    strContains (generate_farmer_advice (49999/1000 : ℚ)).title "Heavy" = false := by
  refine ⟨gfa_title_49999, ?_⟩
  rw [gfa_title_49999]
  decide

/-- C1 witness: the five band implications of `claim_C1_bands`
instantiated at 0.5, 3, 10, 30 and 60 mm. -/
theorem claim_C1_witness :
    strContains (generate_farmer_advice (1/2 : ℚ)).title "Drought" = true ∧
    strContains (generate_farmer_advice (3 : ℚ)).title "Light" = true ∧
    strContains (generate_farmer_advice (10 : ℚ)).title "Optimal" = true ∧
    strContains (generate_farmer_advice (30 : ℚ)).title "Heavy" = true ∧
    strContains (generate_farmer_advice (60 : ℚ)).title "Severe" = true := by
  refine ⟨?_, ?_, ?_, ?_, ?_⟩
  · exact (claim_C1_bands (1/2)).1 (by rw [round2_half]; norm_num)
  · exact (claim_C1_bands 3).2.1 (by rw [round2_three]; norm_num)
      (by rw [round2_three]; norm_num)
  · exact (claim_C1_bands 10).2.2.1 (by rw [round2_ten]; norm_num)
      (by rw [round2_ten]; norm_num)
  · exact (claim_C1_bands 30).2.2.2.1 (by rw [round2_thirty]; norm_num)
      (by rw [round2_thirty]; norm_num)
  · exact (claim_C1_bands 60).2.2.2.2.1 (by rw [round2_sixty]; norm_num)

/-- C2: the classifier first rounds its input to 2 decimal places and both
classifies and displays the rounded value: the result is a function of
`round2` of the input, the title embeds the rendered rounded value,
`classify(1.004)` is classified as the rounded value 1.00 (Light band,
title "Light Rain (1.0 mm)"), and `classify(0.5).title` is exactly
"Drought Alert (0.5 mm)". -/
theorem claim_C2_rounds_then_classifies (q : ℚ) :
    generate_farmer_advice q = generate_farmer_advice (round2 q) ∧
    (∃ p, (generate_farmer_advice q).title = p ++ formatRat2 (round2 q) ++ " mm)") ∧
    (generate_farmer_advice (1004/1000 : ℚ)).title = "Light Rain (1.0 mm)" ∧
    (generate_farmer_advice (1/2 : ℚ)).title = "Drought Alert (0.5 mm)" := by
  refine ⟨?_, ?_, gfa_title_1004, gfa_title_half⟩
  · simp only [generate_farmer_advice, round2_idem]
  · rw [generate_farmer_advice]
    split_ifs
    · exact ⟨"Drought Alert (", rfl⟩
    · exact ⟨"Light Rain (", rfl⟩
    · exact ⟨"Optimal (", rfl⟩
    · exact ⟨"Heavy (", rfl⟩
    · exact ⟨"Severe Flooding (", rfl⟩

/-! Helper lemmas about the log store model. -/

theorem mkLine_length (row : Row) : (mkLine row).length = LOG_COLS.length := by
  rw [mkLine, List.length_map]

theorem any_long_eq_false (h : Line) (rows : List Line)
    (hle : ∀ r ∈ rows, r.length ≤ h.length) :
    (rows.any fun r => decide (h.length < r.length)) = false := by
  rw [List.any_eq_false]
  intro r hr
  simp [not_lt, hle r hr]

theorem tailN_length (n : Nat) (l : List α) : (tailN n l).length = min n l.length := by
  rw [tailN, List.length_drop]
  omega

theorem tailN_one_append (l : List α) (a : α) : tailN 1 (l ++ [a]) = [a] := by
  rw [tailN]
  have h : (l ++ [a]).length - 1 = l.length := by simp
  rw [h, List.drop_left]

theorem appendAll_some (rs : List Row) :
    ∀ ls, appendAll rs (some ls) = some (ls ++ rs.map mkLine) := by
  induction rs with
  | nil => intro ls; simp [appendAll]
  | cons r rest ih =>
    intro ls
    show appendAll rest (append_log r (some ls)) = _
    rw [show append_log r (some ls) = some (ls ++ [mkLine r]) from rfl, ih]
    simp

theorem length_read_le (n : Nat) (h : Line) (rows : List Line) :
    (read_recent n (some (h :: rows))).length ≤ rows.length := by
  cases rows with
  | nil => simp [read_recent]
  | cons first rest =>
    simp only [read_recent]
    split
    · simp
    · rw [tailN_length, List.length_map]
      omega

theorem read_recent_wf (n : Nat) (header : Line) (rows : List Line)
    (hle : ∀ r ∈ rows, r.length ≤ header.length) :
    read_recent n (some (header :: rows)) = tailN n (rows.map fun r => header.zip r) := by
  cases rows with
  | nil => simp [read_recent, tailN]
  | cons first rest =>
    have hf : first.length ≤ header.length := hle first (by simp)
    have hmax : max header.length first.length = header.length := max_eq_left hf
    simp only [read_recent, hmax, Nat.sub_self, List.drop_zero]
    rw [any_long_eq_false header (first :: rest) hle]
    simp

theorem lookup_zip : ∀ (h r : List String), h.Nodup →
    ∀ (i : ℕ) (hih : i < h.length) (hir : i < r.length),
      (h.zip r).lookup h[i] = some r[i] := by
  intro h
  induction h with
  | nil => intro r _ i hih _; simp at hih
  | cons a h' ih =>
    intro r hnd i hih hir
    cases r with
    | nil => simp at hir
    | cons b r' =>
      rw [List.zip_cons_cons]
      cases i with
      | zero => simp [List.lookup]
      | succ j =>
        have hjh : j < h'.length := by simpa using hih
        have hjr : j < r'.length := by simpa using hir
        have hmem : h'[j] ∈ h' := List.getElem_mem hjh
        have hna : a ∉ h' := (List.nodup_cons.mp hnd).1
        have hne : (h'[j] == a) = false := beq_eq_false_iff_ne.mpr (fun e => hna (e ▸ hmem))
        rw [List.getElem_cons_succ, List.getElem_cons_succ]
        simp only [List.lookup, hne]
        exact ih r' (List.Nodup.of_cons hnd) j hjh hjr

theorem lookup_zip_missing : ∀ (h r : List String), h.Nodup →
    ∀ (i : ℕ), r.length ≤ i → ∀ (hih : i < h.length),
      (h.zip r).lookup h[i] = none := by
  intro h
  induction h with
  | nil => intro r _ i _ hih; simp at hih
  | cons a h' ih =>
    intro r hnd i hri hih
    cases r with
    | nil => simp [List.lookup]
    | cons b r' =>
      cases i with
      | zero => simp at hri
      | succ j =>
        have hjh : j < h'.length := by simpa using hih
        have hjr : r'.length ≤ j := by simpa using hri
        have hmem : h'[j] ∈ h' := List.getElem_mem hjh
        have hna : a ∉ h' := (List.nodup_cons.mp hnd).1
        have hne : (h'[j] == a) = false := beq_eq_false_iff_ne.mpr (fun e => hna (e ▸ hmem))
        rw [List.zip_cons_cons, List.getElem_cons_succ]
        simp only [List.lookup, hne]
        exact ih r' (List.Nodup.of_cons hnd) j hjr hjh

theorem lookup_zip_map : ∀ (cols : List String) (f : String → String) (k : String),
    k ∈ cols → (cols.zip (cols.map f)).lookup k = some (f k) := by
  intro cols
  induction cols with
  | nil => intro f k hk; simp at hk
  | cons c cs ih =>
    intro f k hk
    rw [List.map_cons, List.zip_cons_cons]
    by_cases hkc : k = c
    · subst hkc; simp [List.lookup]
    · have hne : (k == c) = false := beq_eq_false_iff_ne.mpr hkc
      have hk' : k ∈ cs := by
        rcases List.mem_cons.mp hk with h | h
        · exact absurd h hkc
        · exact h
      simp only [List.lookup, hne]
      exact ih f k hk'

/-- C3 (amended): for any record and any log state the store itself can
produce (absent, or schema header followed by data rows no longer than
the header), appending the record and then reading the most recent entry
returns exactly one record equal in all seven schema fields to the one
appended. -/
theorem claim_C3_roundtrip (row : Row) (fs : FileState)
    (hwf : wellFormedLog fs = true) :
    read_recent 1 (append_log row fs) = [recordOf row] ∧
    (∀ k ∈ LOG_COLS, (recordOf row).lookup k = some (dictGet row k)) := by
  constructor
  · cases fs with
    | none => rfl
    | some ls =>
      cases ls with
      | nil => simp [wellFormedLog] at hwf
      | cons h rows =>
        simp only [wellFormedLog, Bool.and_eq_true, beq_iff_eq, List.all_eq_true] at hwf
        obtain ⟨hh, hall⟩ := hwf
        subst hh
        show read_recent 1 (some ((LOG_COLS :: rows) ++ [mkLine row])) = [recordOf row]
        rw [List.cons_append]
        have hle : ∀ r ∈ rows ++ [mkLine row], r.length ≤ LOG_COLS.length := by
          intro r hr
          rcases List.mem_append.mp hr with hr1 | hr2
          · exact of_decide_eq_true (hall r hr1)
          · rw [List.mem_singleton.mp hr2, mkLine_length]
        rw [read_recent_wf 1 LOG_COLS (rows ++ [mkLine row]) hle]
        rw [List.map_append]
        show tailN 1 ((rows.map fun r => LOG_COLS.zip r) ++ [recordOf row]) = [recordOf row]
        rw [tailN_one_append]
  · intro k hk
    show (LOG_COLS.zip (LOG_COLS.map fun c => dictGet row c)).lookup k = some (dictGet row k)
    exact lookup_zip_map LOG_COLS (fun c => dictGet row c) k hk

/-- C3 counterexample: starting from a log state that exists but is empty
(zero lines), appending a record and immediately reading back returns no
record at all — the appended line is consumed as the header — so the
round-trip fails from this state. -/
theorem claim_C3_counterexample :
    read_recent 1 (append_log r1x (some [])) = [] := rfl

/-- C3 witness: the round-trip instantiated at the scenario-A record on
an absent log. -/
theorem claim_C3_witness :
    read_recent 1 (append_log r1x none) = [recordOf r1x] ∧
    (recordOf r1x).lookup "predicted_rainfall" = some "0.5" := by
  have h := claim_C3_roundtrip r1x none rfl
  refine ⟨h.1, ?_⟩
  have h2 := h.2 "predicted_rainfall" (by decide)
  rw [h2]
  rfl

/-- C4 (amended): `read_recent n` returns an empty list on a nonexistent
file, on an existing empty file, and on a header-only file, and a parse
failure — some data row wider than the field width established by the
header and the first data row, the case where `pd.read_csv` raises — is
absorbed into an empty list rather than propagated; the function is
total.  A file whose first data row is uniformly wider than the header
is not a parse failure: pandas promotes the leading extra column to the
index and records are returned. -/
theorem claim_C4_read_absorbs_errors (n : ℕ) :
    read_recent n none = [] ∧
    read_recent n (some []) = [] ∧
    (∀ header : Line, read_recent n (some [header]) = []) ∧
    (∀ (header first : Line) (rest : List Line),
      (∃ r ∈ first :: rest, max header.length first.length < r.length) →
        read_recent n (some (header :: first :: rest)) = []) := by
  refine ⟨rfl, rfl, fun header => rfl, ?_⟩
  intro header first rest hex
  have hany : ((first :: rest).any
      fun r => decide (max header.length first.length < r.length)) = true := by
    rw [List.any_eq_true]
    obtain ⟨r, hr, hlt⟩ := hex
    exact ⟨r, hr, decide_eq_true hlt⟩
  simp only [read_recent]
  rw [hany]
  simp

/-- C4 counterexample: the claim as stated requires a malformed file to
yield an empty sequence, but on the file with header ["a"] and the single
wider data row ["x", "y"], `pd.read_csv` promotes the leading column to
the index and parses successfully, so the code returns the one record
associating "a" with "y" — a nonempty result. -/
theorem claim_C4_counterexample :
    read_recent 5 (some [["a"], ["x", "y"]]) = [[("a", "y")]] := rfl

/-- C4 witness: a data row wider than the width established by the header
and the first data row yields an empty read. -/
theorem claim_C4_witness : read_recent 5 (some [["a"], ["x"], ["x", "y"]]) = [] := by
  exact (claim_C4_read_absorbs_errors 5).2.2.2 ["a"] ["x"] [["x", "y"]]
    ⟨["x", "y"], by simp, by decide⟩

/-- C5: for a log built by appending `rows` in order onto an absent file,
`read_recent n` returns exactly the last `min n k` records in original
append order (newest last); in particular after appending R1, R2, R3 in
that order, `read_recent 2` returns [R2, R3] in that order. -/
theorem claim_C5_tail_of_appends (rows : List Row) (n : ℕ) :
    read_recent n (appendAll rows none) = tailN n (rows.map recordOf) ∧
    (read_recent n (appendAll rows none)).length = min n rows.length ∧
    read_recent 2 (appendAll [r1x, r2x, r3x] none) = [recordOf r2x, recordOf r3x] := by
  have key : ∀ (rs : List Row) (m : ℕ),
      read_recent m (appendAll rs none) = tailN m (rs.map recordOf) := by
    intro rs m
    cases rs with
    | nil => simp [appendAll, read_recent, tailN]
    | cons r rest =>
      have h1 : appendAll (r :: rest) none = some (LOG_COLS :: ((r :: rest).map mkLine)) := by
        show appendAll rest (append_log r none) = _
        rw [show append_log r none = some [LOG_COLS, mkLine r] from rfl, appendAll_some]
        simp
      rw [h1]
      have hle : ∀ l ∈ (r :: rest).map mkLine, l.length ≤ LOG_COLS.length := by
        intro l hl
        obtain ⟨w, _, hw⟩ := List.mem_map.mp hl
        rw [← hw, mkLine_length]
      rw [read_recent_wf m LOG_COLS ((r :: rest).map mkLine) hle]
      rw [List.map_map]
      rfl
  refine ⟨key rows n, ?_, ?_⟩
  · rw [key rows n, tailN_length, List.length_map]
  · rw [key [r1x, r2x, r3x] 2]
    rfl

/-- C6: every append writes exactly one data line holding exactly the
seven schema fields in the fixed column order, with missing keys written
as empty fields; the first append on an absent file writes the header
line before the record, and appends on an existing file never write the
header again. -/
theorem claim_C6_fixed_schema (row : Row) :
    append_log row none = some [LOG_COLS, mkLine row] ∧
    (∀ ls, append_log row (some ls) = some (ls ++ [mkLine row])) ∧
    (mkLine row).length = LOG_COLS.length ∧
    (∀ (i : ℕ) (k : String), LOG_COLS[i]? = some k →
      (mkLine row)[i]? = some (dictGet row k)) ∧
    (∀ (i : ℕ) (k : String), LOG_COLS[i]? = some k → row.lookup k = none →
      (mkLine row)[i]? = some "") := by
  refine ⟨rfl, fun ls => rfl, mkLine_length row, ?_, ?_⟩
  · intro i k hik
    rw [mkLine, List.getElem?_map, hik]
    rfl
  · intro i k hik hnone
    rw [mkLine, List.getElem?_map, hik]
    simp [dictGet, hnone]

/-- C6 witness: for a row carrying only a date, position 1 of the written
line (the temperature column) is the empty string. -/
theorem claim_C6_witness : (mkLine [("date", "d")])[1]? = some "" := by
  exact (claim_C6_fixed_schema [("date", "d")]).2.2.2.2 1 "temperature" rfl rfl

/-- C7: the store is strictly append-only: appending to any existing log
leaves every previously written line unchanged and in its original order
and adds exactly one new line at the end, and the first append on an
absent file only adds the header and the new line; no operation of the
store rewrites existing content (reads are pure observers of the state).
-/
theorem claim_C7_append_only :
    (∀ (row : Row) (ls : List Line),
      append_log row (some ls) = some (ls ++ [mkLine row])) ∧
    (∀ row : Row, append_log row none = some ([LOG_COLS] ++ [mkLine row])) := by
  exact ⟨fun row ls => rfl, fun row => rfl⟩

/-- C8: on read, rows shorter than the header are tolerated — the read
succeeds and the missing trailing columns are simply absent from the
returned record — and records are keyed by the header's column names, not
by the schema's positions: for any duplicate-free header, the value at
position i of a data row is returned under the header name at position i,
so extra or reordered columns still associate each value with its correct
field. -/
theorem claim_C8_read_by_name (h : Line) (rows : List Line) (n : ℕ)
    (hnd : h.Nodup) (hle : ∀ r ∈ rows, r.length ≤ h.length) :
    read_recent n (some (h :: rows)) = tailN n (rows.map fun r => h.zip r) ∧
    (∀ r ∈ rows, ∀ (i : ℕ) (hih : i < h.length),
      (∀ hir : i < r.length, (h.zip r).lookup h[i] = some r[i]) ∧
      (r.length ≤ i → (h.zip r).lookup h[i] = none)) := by
  constructor
  · exact read_recent_wf n h rows hle
  · intro r hr i hih
    exact ⟨fun hir => lookup_zip h r hnd i hih hir,
           fun hge => lookup_zip_missing h r hnd i hge hih⟩

/-- C8 witness: a reordered, partial header file: under header
[wind, date] a one-field row is read successfully, its single value is
associated with the column name "wind", and the missing "date" column is
absent from the record. -/
theorem claim_C8_witness :
    read_recent 1 (some [["wind", "date"], ["5.0"]]) = [[("wind", "5.0")]] ∧
    ((["wind", "date"] : Line).zip ["5.0"]).lookup "wind" = some "5.0" ∧
    ((["wind", "date"] : Line).zip ["5.0"]).lookup "date" = none := by
  obtain ⟨h1, h2⟩ := claim_C8_read_by_name ["wind", "date"] [["5.0"]] 1 (by decide)
    (by intro r hr; rw [List.mem_singleton.mp hr]; decide)
  refine ⟨?_, ?_, ?_⟩
  · rw [h1]; rfl
  · exact (h2 ["5.0"] (by simp) 0 (by decide)).1 (by decide)
  · exact (h2 ["5.0"] (by simp) 1 (by decide)).2 (by decide)

/-- C9: if the log file exists but is empty, append writes the record line
without a header (the header decision looks only at file existence), the
first record's line then occupies the header position, and a read
immediately after returns nothing; after any number of further appends a
read returns at most one record per later append, so the first record is
never returned. -/
theorem claim_C9_empty_file_swallows_record (row : Row) :
    append_log row (some []) = some [mkLine row] ∧
    (∀ n, read_recent n (append_log row (some [])) = []) ∧
    (∀ (more : List Row) (n : ℕ),
      (read_recent n (appendAll more (append_log row (some [])))).length ≤ more.length) := by
  refine ⟨rfl, ?_, ?_⟩
  · intro n
    rfl
  · intro more n
    rw [show append_log row (some []) = some [mkLine row] from rfl, appendAll_some]
    rw [List.singleton_append]
    calc (read_recent n (some (mkLine row :: more.map mkLine))).length
        ≤ (more.map mkLine).length := length_read_le n (mkLine row) (more.map mkLine)
      _ = more.length := List.length_map more mkLine

/-- C10: the write path is total over arbitrary input dictionaries: the
written line always has exactly the seven schema columns, it depends only
on the dictionary's values at the seven schema keys (keys outside the
schema are silently ignored and never written), and a missing schema key
is written as the empty string. -/
theorem claim_C10_write_total (row row2 : Row) :
    (mkLine row).length = LOG_COLS.length ∧
    ((∀ k ∈ LOG_COLS, row.lookup k = row2.lookup k) → mkLine row = mkLine row2) ∧
    (∀ k ∈ LOG_COLS, row.lookup k = none → dictGet row k = "") := by
  refine ⟨mkLine_length row, ?_, ?_⟩
  · intro hagree
    rw [mkLine, mkLine]
    apply List.map_congr_left
    intro k hk
    simp only [dictGet, hagree k hk]
  · intro k hk hnone
    simp [dictGet, hnone]

/-- C10 witness: a dictionary with an extra non-schema key writes the same
line as the dictionary without it, and a missing schema key surfaces as
the empty string. -/
theorem claim_C10_witness :
    mkLine [("junk", "x"), ("date", "d")] = mkLine [("date", "d")] ∧
    dictGet [("date", "d")] "wind" = "" := by
  constructor
  · exact (claim_C10_write_total [("junk", "x"), ("date", "d")] [("date", "d")]).2.1
      (by decide)
  · exact (claim_C10_write_total [("date", "d")] []).2.2 "wind" (by decide) rfl
